import Mathlib

/-!
Shallow embedding of the dk-shelter-web-search availability pipeline
(`src/pages/api/search.ts` and its rewritten drafts `src/unnamed/part_005`,
`part_007`, `part_008`).  Pure functions of the source are translated
directly; network calls are parameterised by an explicit `Upstream`
environment mapping each request to the (already decoded) response the
remote service would deliver, so that every function stays executable.
-/

namespace DkShelter

/-- Category/type ids that are never real place ids
(`TYPE_IDS = new Set([3012, 3031, 3091])`, identical in all drafts). -/
def TYPE_IDS : List Nat := [3012, 3031, 3091]

/-- `BASE` host constant of the source. -/
def BASE : String := "https://book.naturstyrelsen.dk"

/-- Fixed listing page size: the `ps: "200"` request parameter and the
`rows.length < 200` termination check of `fetchAllPlaces`. -/
def PAGE_SIZE : Nat := 200

/-- Region presets `(lat_min, lat_max, lon_min, lon_max)` from the source
(`PRESETS`), with the decimal literals read as rationals. -/
def PRESETS : List (String × (ℚ × ℚ × ℚ × ℚ)) :=
  [("sjælland", (mkRat 546 10, mkRat 5595 100, 11, mkRat 128 10)),
   ("fyn", (55, mkRat 556 10, mkRat 96 10, mkRat 108 10)),
   ("jylland", (mkRat 5455 100, mkRat 578 10, 8, mkRat 106 10)),
   ("bornholm", (55, mkRat 554 10, mkRat 146 10, mkRat 153 10)),
   ("lolland-falster", (mkRat 545 10, mkRat 5495 100, mkRat 1105 100, mkRat 123 10)),
   ("møn", (mkRat 5485 100, mkRat 5508 100, mkRat 1215 100, mkRat 126 10)),
   ("amager", (mkRat 5555 100, mkRat 5575 100, mkRat 1245 100, mkRat 1275 100))]

/-- Alias table mapping normalized free-text names to canonical preset keys
(`ALIAS` in the source). -/
def ALIAS : List (String × String) :=
  [("sjaelland", "sjælland"), ("zealand", "sjælland"), ("sjalland", "sjælland"),
   ("fyn", "fyn"), ("funen", "fyn"),
   ("jylland", "jylland"), ("jutland", "jylland"), ("jyland", "jylland"),
   ("bornholm", "bornholm"),
   ("lolland", "lolland-falster"), ("falster", "lolland-falster"),
   ("lollandfalster", "lolland-falster"),
   ("moen", "møn"), ("mon", "møn"), ("møn", "møn"),
   ("amager", "amager")]

/-- JavaScript `toLowerCase` on one character, restricted to the alphabet
used by the region tables: ASCII letters plus the Danish letters Æ/Ø/Å. -/
def jsToLowerChar (c : Char) : Char :=
  if c = 'Æ' then 'æ'
  else if c = 'Ø' then 'ø'
  else if c = 'Å' then 'å'
  else if 'A' ≤ c ∧ c ≤ 'Z' then Char.ofNat (c.toNat + 32)
  else c

/-- JavaScript `toLowerCase` of a string (alphabet as in `jsToLowerChar`). -/
def jsToLower (s : String) : String :=
  String.mk (s.data.map jsToLowerChar)

/-- One step of the `norm` character rewriting: diacritic folding
(æ→ae, ø→oe, å→aa) and stripping of whitespace, hyphen and underscore. -/
def normFoldChar (c : Char) (acc : List Char) : List Char :=
  if c = 'æ' then 'a' :: 'e' :: acc
  else if c = 'ø' then 'o' :: 'e' :: acc
  else if c = 'å' then 'a' :: 'a' :: acc
  else if c = ' ' ∨ c = '\t' ∨ c = '\n' ∨ c = '\r' ∨ c = '-' ∨ c = '_' then acc
  else c :: acc

/-- `norm(s)` of the source: lower-case, fold æ/ø/å to their digraphs and
strip whitespace/hyphen/underscore. -/
def norm (s : String) : String :=
  String.mk ((jsToLower s).data.foldr normFoldChar [])

/-- `resolveRegionName(q)`: exact case-insensitive lookup against the
canonical preset keys first, else alias lookup on the normalized form,
else none. -/
def resolveRegionName (q : String) : Option String :=
  if (PRESETS.lookup (jsToLower q)).isSome then some (jsToLower q)
  else ALIAS.lookup (norm q)

example : resolveRegionName "Sjælland" = some "sjælland" := by decide
example : resolveRegionName "sjaelland" = some "sjælland" := by decide
example : resolveRegionName "zealand" = some "sjælland" := by decide
example : resolveRegionName "atlantis" = none := by decide

/-! ## Cookie jar (`class CookieJar`, part_008 lines 54-78)

The jar is a `Map<string,string>`; we model it as an insertion-ordered
association list, exactly the iteration order of a JavaScript `Map`. -/

/-- `Map.set`: overwrite the entry of an existing key in place (keeping
its insertion position), else append a new entry at the end. -/
def assocSet {β : Type} (l : List (String × β)) (k : String) (v : β) :
    List (String × β) :=
  match l with
  | [] => [(k, v)]
  | e :: rest => if e.1 = k then (k, v) :: rest else e :: assocSet rest k v

/-- `Array.from(map).map(join).join(sep)`: interleave a separator. -/
def joinSep (sep : String) : List String → String
  | [] => ""
  | [x] => x
  | x :: rest => x ++ sep ++ joinSep sep rest

/-- `CookieJar.header()`: the single `Cookie` header value
`name1=value1; name2=value2; ...` (undefined for an empty jar is
represented by the empty string, which `fetchWithJar` never attaches). -/
def jarHeader (jar : List (String × String)) : String :=
  joinSep "; " (jar.map (fun e => e.1 ++ "=" ++ e.2))

/-- Split a character list at every occurrence of `sep`
(JavaScript `String.prototype.split` with a one-character separator). -/
def splitOnChar (sep : Char) (cs : List Char) : List (List Char) :=
  cs.foldr (fun c acc =>
    match acc with
    | [] => [[c]]
    | h :: t => if c = sep then [] :: h :: t else (c :: h) :: t) [[]]

/-- Whitespace characters removed by `String.prototype.trim`
(restricted to the ASCII whitespace that can occur in cookie lines). -/
def isWS (c : Char) : Bool := c = ' ' ∨ c = '\t' ∨ c = '\n' ∨ c = '\r'

/-- `trim()`: drop leading and trailing whitespace. -/
def trimChars (cs : List Char) : List Char :=
  ((cs.dropWhile isWS).reverse.dropWhile isWS).reverse

/-- `addFromSetCookieLine(line)`: take the part before the first `;`,
split at the first `=` (which must not be at position 0), trim name and
value, and store the cookie. -/
def addFromSetCookieLine (jar : List (String × String)) (line : String) :
    List (String × String) :=
  if line = "" then jar
  else
    let first := (splitOnChar ';' line.data).headD []
    match first.findIdx? (· = '=') with
    | none => jar
    | some eq =>
      if eq > 0 then
        let name := String.mk (trimChars (first.take eq))
        let value := String.mk (trimChars (first.drop (eq + 1)))
        if name ≠ "" then assocSet jar name value else jar
      else jar

/-- The regex lookahead `(?=[^ ;]+=)`: the character list starts with one
or more characters other than space/semicolon followed by `=`.
`nameEqAfter` consumes the token characters after the first one. -/
def nameEqAfter : List Char → Bool
  | [] => false
  | c :: rest =>
    if c = '=' then true
    else if c = ' ' ∨ c = ';' then false
    else nameEqAfter rest

/-- Head case of the lookahead: the first character itself must be a
token character (`[^ ;]`), after which `nameEqAfter` looks for the `=`. -/
def nameEqAhead : List Char → Bool
  | [] => false
  | c :: rest =>
    if c = ' ' ∨ c = ';' then false
    else nameEqAfter rest

/-- `all.split(/,(?=[^ ;]+=)/)`: split a coalesced `Set-Cookie` header on
every comma immediately followed by a `name=` token (the comma, being the
delimiter, is dropped). -/
def splitSetCookie (cs : List Char) (acc : List Char) : List String :=
  match cs with
  | [] => [String.mk acc.reverse]
  | c :: rest =>
    if c = ',' ∧ nameEqAhead rest then
      String.mk acc.reverse :: splitSetCookie rest []
    else
      splitSetCookie rest (c :: acc)

/-- `CookieJar.addFromResponse`: split the raw coalesced header and merge
each piece into the jar (part_008; absent header leaves the jar alone). -/
def addFromResponse (jar : List (String × String)) (rawHeader : Option String) :
    List (String × String) :=
  match rawHeader with
  | none => jar
  | some all => (splitSetCookie all.data []).foldl addFromSetCookieLine jar

example :
    addFromResponse []
      (some "sid=abc; Expires=Wed, 21 Oct 2015 07:28:00 GMT; Path=/,token=xyz; HttpOnly")
      = [("sid", "abc"), ("token", "xyz")] := by decide

/-! ## Catalog (`fetchAllPlaces`, part_008 lines 109-135 =
`src/pages/api/search.ts` lines 112-138)

One listing row carries the fields the source reads.  Numeric fields hold
the coerced value: `none` stands for an absent field (so the `??`
fallbacks apply) or a non-finite coercion result. -/

/-- One row of the upstream `BookingPlacesList` array. -/
structure Row where
  uri : String
  placeID : Option Nat
  doubleLat : Option ℚ
  lat : Option ℚ
  doubleLng : Option ℚ
  lng : Option ℚ
  title : String
  regionName : String
deriving DecidableEq

/-- One catalog entry (`type Place` of the source).  `place_id`, `lat`,
`lng` use `Option` for the source's `number | null`. -/
structure Place where
  title : String
  url : String
  place_id : Option Nat
  lat : Option ℚ
  lng : Option ℚ
  region : String
deriving DecidableEq

/-- `uri.replace(/^\/|\/$/g, "")`: remove one leading and one trailing
slash. -/
def stripOuterSlashes (cs : List Char) : List Char :=
  let cs1 := match cs with
    | '/' :: rest => rest
    | other => other
  match cs1.reverse with
  | '/' :: rest => rest.reverse
  | _ => cs1

/-- ASCII upper-casing of one character (the `\w` characters the source's
`replace(/\b\w/g, m => m.toUpperCase())` can hit). -/
def asciiUpper (c : Char) : Char :=
  if 'a' ≤ c ∧ c ≤ 'z' then Char.ofNat (c.toNat - 32) else c

/-- A `\w` word character: ASCII letter, digit or underscore. -/
def isWordChar (c : Char) : Bool := c.isAlphanum ∨ c = '_'

/-- Upper-case every word-initial `\w` character (the flag records whether
the previous character was a non-word character or the string start). -/
def capWordsAux : Bool → List Char → List Char
  | _, [] => []
  | atBoundary, c :: rest =>
    (if atBoundary ∧ isWordChar c then asciiUpper c else c) ::
      capWordsAux (¬ isWordChar c) rest

/-- Title synthesis from the slug: replace every hyphen by a space, then
upper-case every word-initial character (the two `replace` calls on `uri`
in the source). -/
def humanize (uri : String) : String :=
  String.mk (capWordsAux true (uri.data.map (fun c => if c = '-' then ' ' else c)))

/-- Defensive catalog `PlaceID` parsing: `Number(c.PlaceID ?? NaN)` kept
only when finite and not an excluded category id. -/
def parsePlaceId (pid : Option Nat) : Option Nat :=
  match pid with
  | none => none
  | some id => if TYPE_IDS.contains id then none else some id

/-- JavaScript `a ?? b` on two optional numbers. -/
def jsCoalesce (a b : Option ℚ) : Option ℚ :=
  match a with
  | some x => some x
  | none => b

/-- Conversion of one listing row into a `Place` (the body of the
`for (const c of rows)` loop): rows without a usable slug are dropped. -/
def rowToPlace (c : Row) : Option Place :=
  let uri := String.mk (stripOuterSlashes (trimChars c.uri.data))
  if uri = "" then none
  else some
    { title := if c.title ≠ "" then c.title else humanize uri
      url := BASE ++ "/sted/" ++ uri ++ "/"
      place_id := parsePlaceId c.placeID
      lat := jsCoalesce c.doubleLat c.lat
      lng := jsCoalesce c.doubleLng c.lng
      region := c.regionName }

/-- The paging loop of `fetchAllPlaces`.  `pages p` is the
`BookingPlacesList` of page `p` (`none` when the page request fails or
its body does not parse, which aborts the whole fetch — the source lets
the exception escape).  Besides the catalog the function returns the list
of page numbers actually requested.  `fuel` is the number of loop
iterations still allowed by `for (let p = 1; p <= 500; p++)`. -/
def fetchLoop (pages : Nat → Option (List Row)) :
    Nat → Nat → Except Unit (List Place) × List Nat
  | _, 0 => (Except.ok [], [])
  | p, fuel + 1 =>
    match pages p with
    | none => (Except.error (), [p])
    | some rows =>
      if rows.length = 0 then (Except.ok [], [p])
      else
        let parsed := rows.filterMap rowToPlace
        if rows.length < PAGE_SIZE then (Except.ok parsed, [p])
        else
          match fetchLoop pages (p + 1) fuel with
          | (Except.ok rest, reqs) => (Except.ok (parsed ++ rest), p :: reqs)
          | (Except.error e, reqs) => (Except.error e, p :: reqs)

/-- `fetchAllPlaces`: page through the listing starting at page 1 with at
most 500 pages. -/
def fetchAllPlaces (pages : Nat → Option (List Row)) :
    Except Unit (List Place) × List Nat :=
  fetchLoop pages 1 500

/-! ## Region classification (part_008 lines 325-336, part_005 lines
274-287; the two filters are identical) -/

/-- Bounding-box test of the filter body:
`p.lat >= latMin && p.lat <= latMax && p.lng >= lonMin && p.lng <= lonMax`
for the preset box of canonical key `k` (false for a key without a box —
the handler only ever passes keys produced by `resolveRegionName`). -/
def inBox (k : String) (la ln : ℚ) : Bool :=
  match PRESETS.lookup k with
  | some (latMin, latMax, lonMin, lonMax) =>
    decide (latMin ≤ la) ∧ decide (la ≤ latMax) ∧
    decide (lonMin ≤ ln) ∧ decide (ln ≤ lonMax)
  | none => false

/-- The filter callback applied to one place: drop it without
coordinates, otherwise keep it when some requested key's box contains it,
assigning the first matching key as `region` when `region` is empty
(`if (ok && !p.region) p.region = k`). -/
def classifyOne (keys : List String) (p : Place) : Option Place :=
  match p.lat, p.lng with
  | some la, some ln =>
    match keys.find? (fun k => inBox k la ln) with
    | some k => some (if p.region = "" then { p with region := k } else p)
    | none => none
  | _, _ => none

/-- `classify`: the region filter of the handler — the input unchanged
when no canonical key was requested (`if (keys.length)`), else the
filtered (and region-labelled) places. -/
def classify (keys : List String) (places : List Place) : List Place :=
  if keys = [] then places else places.filterMap (classifyOne keys)

/-! ## Identifier extraction and cache -/

/-- Does the second list start with the first one? -/
def listStartsWith : List Char → List Char → Bool
  | [], _ => true
  | _ :: _, [] => false
  | p :: ps, c :: cs => p = c ∧ listStartsWith ps cs

/-- The characters after the first occurrence of `pat`, if any. -/
def afterFirstOcc (pat : List Char) : List Char → Option (List Char)
  | [] => none
  | c :: rest =>
    if listStartsWith pat (c :: rest) then some ((c :: rest).drop pat.length)
    else afterFirstOcc pat rest

/-- `slugFromUrl(url)`: the regex capture of the first
`[slash]sted[slash]segment[slash]` span of the url (the segment is
non-empty and must be followed by a further slash; the urls the pipeline
builds are lower-case, so the regex's case-insensitivity flag is not
modelled). -/
def slugFromUrl (url : String) : Option String :=
  match afterFirstOcc "/sted/".data url.data with
  | none => none
  | some rest =>
    let seg := rest.takeWhile (fun c => c ≠ '/')
    if seg.length > 0 ∧ seg.length < rest.length then some (String.mk seg) else none

/-- `extractId(html)` (part_008 lines 165-182).  The regex layer is
abstracted: entry `i` of the argument is the numeric value captured by
pattern `i` on the html, `none` when that pattern does not match (a
capture whose `Number` is non-finite behaves identically to a non-match,
since the `Number.isFinite` guard then skips the pattern).  The first
captured value outside the excluded category set is returned. -/
def extractId : List (Option Nat) → Option Nat
  | [] => none
  | none :: rest => extractId rest
  | some id :: rest =>
    if TYPE_IDS.contains id then extractId rest else some id

/-- One cache insertion as performed by `buildIdCache` and by the
handler's on-the-fly resolution (part_005 lines 204-207 and 310-314):
`if (id) map.set(slug, id)` — the JavaScript truthiness test skips both a
null and a zero extraction result. -/
def cacheInsert (cache : List (String × Nat)) (slug : String)
    (extracted : Option Nat) : List (String × Nat) :=
  match extracted with
  | some id => if id ≠ 0 then assocSet cache slug id else cache
  | none => cache

/-- `buildIdCache` (part_005 lines 193-216): walk the catalog, scrape
each detail page and record every truthy extracted id under the place's
slug.  `detail url` is the pattern-capture list of the fetched page,
`none` when `fetchDetailHTML` throws (the `catch` ignores the place). -/
def buildIdCache (detail : String → Option (List (Option Nat)))
    (places : List Place) : List (String × Nat) :=
  places.foldl (fun map p =>
    match slugFromUrl p.url with
    | none => map
    | some slug =>
      match detail p.url with
      | none => map
      | some ms => cacheInsert map slug (extractId ms)) []

/-! ## Stay request dates -/

/-- Leap year rule of the proleptic Gregorian calendar used by
JavaScript `Date` UTC arithmetic. -/
def isLeap (y : Nat) : Bool := y % 4 = 0 ∧ (y % 100 ≠ 0 ∨ y % 400 = 0)

/-- Days in month `m` of year `y` (months 1-12; any other `m` is given 31
days so the function is total — the handler only reaches it through a
start string the format check accepted). -/
def daysInMonth (y m : Nat) : Nat :=
  if m = 2 then (if isLeap y then 29 else 28)
  else if m = 4 ∨ m = 6 ∨ m = 9 ∨ m = 11 then 30
  else 31

/-- The day after `(y, m, d)` (`d.setUTCDate(d.getUTCDate() + 1)`). -/
def nextDay : Nat × Nat × Nat → Nat × Nat × Nat
  | (y, m, d) =>
    if d < daysInMonth y m then (y, m, d + 1)
    else if m < 12 then (y, m + 1, 1)
    else (y + 1, 1, 1)

/-- `(y, m, d)` shifted `i` days forward. -/
def addDaysYMD : Nat × Nat × Nat → Nat → Nat × Nat × Nat
  | ymd, 0 => ymd
  | ymd, i + 1 => addDaysYMD (nextDay ymd) i

/-- The decimal digit character for `n % 10`. -/
def digitChar (n : Nat) : Char := Char.ofNat (48 + n % 10)

/-- `d.toISOString().slice(0, 10)`: zero-padded `YYYY-MM-DD` (years of
interest are 1000-9999, where `toISOString` prints four digits). -/
def fmtDate : Nat × Nat × Nat → String
  | (y, m, d) =>
    String.mk [digitChar (y / 1000), digitChar (y / 100), digitChar (y / 10), digitChar y,
      '-', digitChar (m / 10), digitChar m, '-', digitChar (d / 10), digitChar d]

/-- Numeric value of a decimal digit string. -/
def digitsVal (cs : List Char) : Nat :=
  cs.foldl (fun a c => a * 10 + (c.toNat - 48)) 0

/-- Year, month and day read from a `YYYY-MM-DD` string
(`new Date(start + "T00:00:00Z")` on a string the format check accepted). -/
def parseStartDate (s : String) : Nat × Nat × Nat :=
  (digitsVal (s.data.take 4), digitsVal ((s.data.drop 5).take 2),
    digitsVal ((s.data.drop 8).take 2))

/-- `const nights = Math.max(1, Number(req.query.nights || 1))`: `none`
models an absent (or empty) parameter, `some n` a finite numeric value. -/
def jsNights (raw : Option ℚ) : ℚ :=
  match raw with
  | none => max 1 1
  | some n => max 1 n

/-- Iteration count of `for (let i = 0; i < nights; i++)` for a finite
(possibly fractional) loop bound. -/
def numIters (q : ℚ) : Nat := if q ≤ 0 then 0 else (⌈q⌉).toNat

/-- The `needs` array: one `YYYY-MM-DD` string per required night,
starting at `start`. -/
def buildNeeds (start : String) (nights : ℚ) : List String :=
  (List.range (numIters nights)).map (fun i => fmtDate (addDaysYMD (parseStartDate start) i))

/-- The `/^\d{4}-\d{2}-\d{2}$/` format test on `start`. -/
def validStart (s : String) : Bool :=
  let cs := s.data
  cs.length = 10 ∧ (cs.take 4).all Char.isDigit ∧ cs[4]? = some '-' ∧
    ((cs.drop 5).take 2).all Char.isDigit ∧ cs[7]? = some '-' ∧
    ((cs.drop 8).take 2).all Char.isDigit

example : validStart "2025-09-07" = true := by decide
example : validStart "07-09-2025" = false := by decide
example : buildNeeds "2025-09-07" 1 = ["2025-09-07"] := by decide
example : buildNeeds "2025-08-30" 3 = ["2025-08-30", "2025-08-31", "2025-09-01"] := by decide

/-! ## Calendar responses and the upstream environment

A parsed calendar JSON document.  For each of the two date arrays:
`some (some xs)` — the field is present and is an array `xs`;
`some none` — present but not an array; `none` — absent (a parsed `null`
document behaves like one with both fields absent).  `partBookingDates`
embeds the source's `PartialBookingDates` field. -/

structure CalResp where
  bookingDates : Option (Option (List String))
  partBookingDates : Option (Option (List String))
deriving DecidableEq

/-- `Array.isArray(data?.BookingDates) ? data.BookingDates : []`. -/
def bookArr (d : CalResp) : List String :=
  match d.bookingDates with
  | some (some xs) => xs
  | _ => []

/-- The same defensive read of the `PartialBookingDates` field. -/
def partArr (d : CalResp) : List String :=
  match d.partBookingDates with
  | some (some xs) => xs
  | _ => []

/-- `toBookedSet(data)` (part_005 lines 101-106, part_007 lines 153-159):
the union of the fully-booked and partially-booked date arrays.  The
source builds a `Set<string>`; list membership below gives the same
set-membership semantics. -/
def toBookedSet (d : CalResp) : List String := bookArr d ++ partArr d

/-- The remote service, as seen through each endpoint: `pages p` is the
decoded listing page `p` (`none` = request or parse failure); `detail u`
is the pattern-capture list of the detail page at url `u` (`none` = no
variant produced a usable body); `calById i` and `calBySlug s` are the
parsed calendar documents for an `i=`-keyed resp. `u=`-keyed query for
the requested month (`none` = non-ok response or unparsable body). -/
structure Upstream where
  pages : Nat → Option (List Row)
  detail : String → Option (List (Option Nat))
  calById : Nat → Option CalResp
  calBySlug : String → Option CalResp

/-- JavaScript truthiness of `place.place_id : number | null`
(both `null` and `0` are falsy). -/
def truthyId : Option Nat → Bool
  | none => false
  | some n => n ≠ 0

/-- `fetchBookedDatesFlex` (part_008 lines 190-234 =
`src/pages/api/search.ts` lines 198-243): numeric-id query first — any
parsed document counts as confirmed, reading only `BookingDates`; on
failure the slug fallback, confirmed only when the parsed document has a
`BookingDates` field; `none` = `{ ok: false }` (no parsed booking
response at all). -/
def fetchBookedDatesFlex (up : Upstream) (p : Place) : Option (List String) :=
  let viaId : Option (List String) :=
    match p.place_id with
    | some pid =>
      if pid ≠ 0 then
        match up.calById pid with
        | some data => some (bookArr data)
        | none => none
      else none
    | none => none
  match viaId with
  | some dates => some dates
  | none =>
    match slugFromUrl p.url with
    | none => none
    | some slug =>
      match up.calBySlug slug with
      | none => none
      | some data =>
        match data.bookingDates with
        | some (some xs) => some xs
        | some none => some []
        | none => none

/-- `fetchBookedDatesBySlug` (part_007 lines 162-180): a parsed document
is confirmed and read through `toBookedSet`. -/
def fetchBookedDatesBySlug (up : Upstream) (slug : String) : Option (List String) :=
  match up.calBySlug slug with
  | some data => some (toBookedSet data)
  | none => none

/-- `fetchBookedDatesById` (part_007 lines 183-201): the `i=`-keyed
variant of the same query, also read through `toBookedSet`. -/
def fetchBookedDatesById (up : Upstream) (id : Nat) : Option (List String) :=
  match up.calById id with
  | some data => some (toBookedSet data)
  | none => none

/-- One element of the `available` output array. -/
structure Item where
  name : String
  url : String
  lat : Option ℚ
  lng : Option ℚ
  region : String
  place_id : Option Nat
deriving DecidableEq

/-- The object pushed onto `available` for place `p`. -/
def mkItem (p : Place) : Item :=
  { name := p.title, url := p.url, lat := p.lat, lng := p.lng,
    region := p.region, place_id := p.place_id }

/-! ## Availability loop of part_008 (handler lines 355-375) -/

/-- Counters and output of the part_008 availability loop. -/
structure AvailState8 where
  available : List Item
  availChecked : Nat
  availErrors : Nat
deriving DecidableEq

/-- Initial loop state. -/
def AvailState8.init : AvailState8 := ⟨[], 0, 0⟩

/-- One iteration of the part_008 loop: an unconfirmed place
(`!resp.ok`) is skipped by `continue` — no counter moves and nothing is
pushed; a confirmed place is counted as checked and pushed iff none of
the required nights is booked. -/
def availStep8 (up : Upstream) (needs : List String) (st : AvailState8) (p : Place) :
    AvailState8 :=
  match fetchBookedDatesFlex up p with
  | none => st
  | some booked =>
    let st1 := { st with availChecked := st.availChecked + 1 }
    if needs.any (fun d => booked.contains d) then st1
    else { st1 with available := st1.available ++ [mkItem p] }

/-- The whole part_008 availability loop over the candidate places. -/
def runAvail8 (up : Upstream) (needs : List String) (places : List Place) : AvailState8 :=
  places.foldl (availStep8 up needs) AvailState8.init

/-! ## Availability loop of part_007 lines 296-332 (slug primary,
id fallback, `toBookedSet` union) -/

/-- Counters and output of the part_007 availability loop. -/
structure AvailState7 where
  available : List Item
  availChecked : Nat
  availErrors : Nat
  usedSlug : Nat
  usedId : Nat
deriving DecidableEq

/-- Initial loop state. -/
def AvailState7.init : AvailState7 := ⟨[], 0, 0, 0, 0⟩

/-- One iteration of the part_007 loop: slug query first, numeric-id
query only when the slug query did not confirm; an unconfirmed place
counts as an error (the skip tally) and is never pushed; a confirmed one
is counted as checked and pushed iff no required night is booked. -/
def availStep7 (up : Upstream) (needs : List String) (st : AvailState7) (p : Place) :
    AvailState7 :=
  let viaSlug : Option (List String) :=
    match slugFromUrl p.url with
    | some slug => fetchBookedDatesBySlug up slug
    | none => none
  let gotSt : Option (List String) × AvailState7 :=
    match viaSlug with
    | some ds => (some ds, { st with usedSlug := st.usedSlug + 1 })
    | none =>
      match p.place_id with
      | some pid =>
        if pid ≠ 0 then
          match fetchBookedDatesById up pid with
          | some ds => (some ds, { st with usedId := st.usedId + 1 })
          | none => (none, st)
        else (none, st)
      | none => (none, st)
  match gotSt.1 with
  | none => { gotSt.2 with availErrors := gotSt.2.availErrors + 1 }
  | some booked =>
    let st2 := { gotSt.2 with availChecked := gotSt.2.availChecked + 1 }
    if needs.any (fun d => booked.contains d) then st2
    else { st2 with available := st2.available ++ [mkItem p] }

/-- The whole part_007 availability loop. -/
def runAvail7 (up : Upstream) (needs : List String) (places : List Place) : AvailState7 :=
  places.foldl (availStep7 up needs) AvailState7.init

/-! ## The part_008 handler (lines 237-399, diagnostic `inspect` branch
and `debug` payload omitted; the trace records every outbound request) -/

/-- One outbound network request of a handler run.  The availability
stage is recorded as one `calendar` event per processed place (the
source makes one or two calendar queries there). -/
inductive NetEvent
  | warmup
  | listPage (p : Nat)
  | detailFetch (url : String)
  | calendar
deriving DecidableEq

/-- The parsed query parameters the modelled pipeline reads.  `nights`
and `maxPlaces` hold the finite numeric value of the parameter, `none`
when it is absent or empty. -/
structure Query where
  start : String
  nights : Option ℚ
  region : List String
  maxPlaces : Option ℚ
deriving DecidableEq

/-- The serialized responses the handler can produce: the 200 payload
`{ count, items }`, the 400 validation error, and the 500 catalog
failure. -/
inductive Response
  | ok (count : Nat) (items : List Item)
  | badRequest
  | serverError
deriving DecidableEq

/-- `if (maxPlaces > 0) places = places.slice(0, maxPlaces)` with
`maxPlaces = Math.max(0, Number(req.query.maxPlaces || 0))`. -/
def applyMaxPlaces (raw : Option ℚ) (places : List Place) : List Place :=
  let m := max 0 (raw.getD 0)
  if 0 < m then places.take (⌊m⌋).toNat else places

/-- Stage 3 of the handler: scrape a detail page for every place whose
`place_id` is falsy and adopt a truthy extracted id
(part_008 lines 343-352). -/
def resolveIds (up : Upstream) (places : List Place) : List Place × List NetEvent :=
  places.foldl (fun acc p =>
    if truthyId p.place_id then (acc.1 ++ [p], acc.2)
    else
      let p' := match up.detail p.url with
        | some ms =>
          match extractId ms with
          | some id => if id ≠ 0 then { p with place_id := some id } else p
          | none => p
        | none => p
      (acc.1 ++ [p'], acc.2 ++ [NetEvent.detailFetch p.url])) ([], [])

/-- The part_008 request handler: session warm-up, `start` format
validation, required-night construction, catalog fetch, region filter,
`maxPlaces` cap, id resolution, availability loop, and the
`{ count: available.length, items: available }` payload. -/
def handler8 (up : Upstream) (q : Query) : Response × List NetEvent :=
  let ev0 : List NetEvent := [NetEvent.warmup]
  if validStart q.start = false then (Response.badRequest, ev0)
  else
    let needs := buildNeeds q.start (jsNights q.nights)
    match fetchAllPlaces up.pages with
    | (Except.error _, reqs) => (Response.serverError, ev0 ++ reqs.map NetEvent.listPage)
    | (Except.ok allPlaces, reqs) =>
      let keys := ((q.region.filter (fun r => r ≠ "")).map resolveRegionName).reduceOption
      let places1 := classify keys allPlaces
      let places2 := applyMaxPlaces q.maxPlaces places1
      let rid := resolveIds up places2
      let st := runAvail8 up needs rid.1
      (Response.ok st.available.length st.available,
        (ev0 ++ reqs.map NetEvent.listPage) ++ rid.2 ++ rid.1.map (fun _ => NetEvent.calendar))

/-- An upstream on which every request fails except an empty catalog. -/
def upEmpty : Upstream :=
  { pages := fun _ => some [], detail := fun _ => none,
    calById := fun _ => none, calBySlug := fun _ => none }

example :
    handler8 upEmpty { start := "2025-09-07", nights := none, region := [], maxPlaces := none }
      = (Response.ok 0 [], [NetEvent.warmup, NetEvent.listPage 1]) := by decide

example :
    handler8 upEmpty { start := "bad", nights := none, region := [], maxPlaces := none }
      = (Response.badRequest, [NetEvent.warmup]) := by decide

/-! # Theorems for the specification claims -/

/-- C7.  Region-name resolution is idempotent on the canonical keys and
case/diacritic-insensitive: "Sjælland", "sjaelland", "zealand" (and the
upper-case "ZEALAND") all resolve to the canonical key "sjælland"; the
lookup is the exact case-insensitive canonical-key match first, then the
alias lookup on the normalized form, else none. -/
theorem claim_region_alias_resolution :
    (∀ k, k ∈ PRESETS.map Prod.fst → resolveRegionName k = some k)
    ∧ resolveRegionName "Sjælland" = some "sjælland"
    ∧ resolveRegionName "sjaelland" = some "sjælland"
    ∧ resolveRegionName "zealand" = some "sjælland"
    ∧ resolveRegionName "ZEALAND" = some "sjælland"
    ∧ resolveRegionName "funen" = some "fyn"
    ∧ resolveRegionName "no such region" = none := by
  decide

/-- Witness for C7 at the concrete canonical key "fyn". -/
theorem claim_region_alias_resolution_witness :
    resolveRegionName "fyn" = some "fyn" :=
  claim_region_alias_resolution.1 "fyn" (by decide)

/-- C10.  The handler clamps `nights` from below: an absent parameter
becomes 1, a finite numeric value `n` becomes `max 1 n`, and the derived
`needs` sequence therefore always contains at least one date. -/
theorem claim_nights_clamped :
    jsNights none = 1
    ∧ (∀ n : ℚ, jsNights (some n) = max 1 n)
    ∧ (∀ (raw : Option ℚ) (start : String), 1 ≤ (buildNeeds start (jsNights raw)).length) := by
  refine ⟨by simp [jsNights], fun n => rfl, fun raw start => ?_⟩
  have h1 : (1 : ℚ) ≤ jsNights raw := by
    cases raw with
    | none => simp [jsNights]
    | some n => simp [jsNights]
  have h0 : ¬ jsNights raw ≤ 0 := by linarith
  have hceil : (1 : ℤ) ≤ ⌈jsNights raw⌉ := by
    have := Int.ceil_mono h1
    simpa using this
  have hlen : (buildNeeds start (jsNights raw)).length = numIters (jsNights raw) := by
    simp [buildNeeds]
  rw [hlen]
  simp only [numIters, h0, if_false]
  omega

/-- C4 helper: `extractId` skips every capture in the excluded set, so a
returned id is never excluded. -/
theorem extractId_not_excluded (ms : List (Option Nat)) (id : Nat)
    (h : extractId ms = some id) : id ∉ TYPE_IDS := by
  induction ms with
  | nil => simp [extractId] at h
  | cons head tail ih =>
    cases head with
    | none => exact ih (by simpa [extractId] using h)
    | some v =>
      by_cases hc : v ∈ TYPE_IDS
      · exact ih (by simpa [extractId, hc] using h)
      · have hv : v = id := by simpa [extractId, hc] using h
        subst hv
        exact hc

/-- Lookup after `assocSet`: the set key now maps to the new value and
every other key is unchanged. -/
theorem lookup_assocSet {β : Type} (l : List (String × β)) (k s : String) (v : β) :
    (assocSet l k v).lookup s = if s = k then some v else l.lookup s := by
  induction l with
  | nil =>
    by_cases h : s = k
    · subst h
      simp [assocSet, List.lookup]
    · have hb : (s == k) = false := beq_eq_false_iff_ne.mpr h
      simp [assocSet, List.lookup, hb, h]
  | cons e rest ih =>
    by_cases he : e.1 = k
    · by_cases h : s = k
      · subst h
        simp [assocSet, he, List.lookup]
      · have hb : (s == k) = false := beq_eq_false_iff_ne.mpr h
        have hbe : (s == e.1) = false := beq_eq_false_iff_ne.mpr (by rw [he]; exact h)
        simp [assocSet, he, List.lookup, hb, hbe, h]
    · by_cases h : s = k
      · subst h
        have hbe : (s == e.1) = false := beq_eq_false_iff_ne.mpr (fun h2 => he h2.symm)
        simp [assocSet, he, List.lookup, hbe, ih]
      · cases hse : s == e.1 <;> simp [assocSet, he, List.lookup, hse, ih, h]

/-- C4 helper: the value-invariant of a cache is preserved by one
insertion of an `extractId` result. -/
theorem cacheInsert_extract_inv (cache : List (String × Nat)) (slug : String)
    (ms : List (Option Nat))
    (hinv : ∀ s i, cache.lookup s = some i → i ∉ TYPE_IDS) :
    ∀ s i, (cacheInsert cache slug (extractId ms)).lookup s = some i → i ∉ TYPE_IDS := by
  intro s i h
  cases hex : extractId ms with
  | none => exact hinv s i (by simpa [cacheInsert, hex] using h)
  | some v =>
    by_cases hv0 : v = 0
    · exact hinv s i (by simpa [cacheInsert, hex, hv0] using h)
    · rw [hex] at h
      simp only [cacheInsert, hv0, ne_eq, not_false_iff, if_true] at h
      rw [lookup_assocSet] at h
      by_cases hs : s = slug
      · simp [hs] at h
        subst h
        exact extractId_not_excluded ms v hex
      · exact hinv s i (by simpa [hs] using h)

/-- C4 helper: the invariant holds for the cache `buildIdCache` builds. -/
theorem buildIdCache_inv (detail : String → Option (List (Option Nat)))
    (places : List Place) :
    ∀ slug id, (buildIdCache detail places).lookup slug = some id → id ∉ TYPE_IDS := by
  have haux : ∀ (ps : List Place) (cache : List (String × Nat)),
      (∀ s i, cache.lookup s = some i → i ∉ TYPE_IDS) →
      ∀ s i, (ps.foldl (fun map p =>
          match slugFromUrl p.url with
          | none => map
          | some slug =>
            match detail p.url with
            | none => map
            | some ms => cacheInsert map slug (extractId ms)) cache).lookup s = some i →
        i ∉ TYPE_IDS := by
    intro ps
    induction ps with
    | nil => intro cache hc s i h; exact hc s i h
    | cons p rest ih =>
      intro cache hc s i h
      refine ih _ ?_ s i (by simpa [List.foldl] using h)
      cases hslug : slugFromUrl p.url with
      | none => simpa [hslug] using hc
      | some slug =>
        cases hdet : detail p.url with
        | none => simpa [hslug, hdet] using hc
        | some ms =>
          simp only [hslug, hdet]
          exact cacheInsert_extract_inv cache slug ms hc
  exact haux places [] (by simp [List.lookup])

/-- C4.  No identifier-resolution strategy ever produces or stores a
value of the excluded category-id set: `extractId` never returns one,
the catalog `PlaceID` parsing of `fetchAllPlaces` nulls one, and the
in-process identifier cache (both `buildIdCache` and the handler's
on-the-fly insertion step) never contains one. -/
theorem claim_no_excluded_identifier :
    (∀ ms id, extractId ms = some id → id ∉ TYPE_IDS)
    ∧ (∀ pid id, parsePlaceId pid = some id → id ∉ TYPE_IDS)
    ∧ (∀ detail places slug id,
        (buildIdCache detail places).lookup slug = some id → id ∉ TYPE_IDS)
    ∧ (∀ cache slug ms s id,
        (∀ s2 i2, cache.lookup s2 = some i2 → i2 ∉ TYPE_IDS) →
        (cacheInsert cache slug (extractId ms)).lookup s = some id → id ∉ TYPE_IDS) := by
  refine ⟨extractId_not_excluded, ?_, ?_, ?_⟩
  · intro pid id h
    cases pid with
    | none => simp [parsePlaceId] at h
    | some v =>
      by_cases hc : v ∈ TYPE_IDS
      · simp [parsePlaceId, hc] at h
      · have hv : v = id := by simpa [parsePlaceId, hc] using h
        subst hv
        exact hc
  · intro detail places slug id h
    exact buildIdCache_inv detail places slug id h
  · intro cache slug ms s id hinv h
    exact cacheInsert_extract_inv cache slug ms hinv s id h

/-- Witness for C4: the id extracted from a page whose first pattern
captured the excluded value 3012 and whose second captured 4437 is 4437,
which is not excluded. -/
theorem claim_no_excluded_identifier_witness :
    (4437 : Nat) ∉ TYPE_IDS :=
  claim_no_excluded_identifier.1 [some 3012, some 4437] 4437 (by decide)

/-- C3.  Region classification: an empty canonical-key set returns the
catalog unchanged; with keys present, a place without coordinates is
dropped, a place with coordinates is kept iff some requested key's
bounding box contains it (keys are ORed), and the first matching key is
assigned as `region` exactly when the field was empty. -/
theorem claim_region_classification :
    (∀ places, classify [] places = places)
    ∧ (∀ keys p, p.lat = none ∨ p.lng = none → classifyOne keys p = none)
    ∧ (∀ keys p la ln, p.lat = some la → p.lng = some ln →
        ((classifyOne keys p).isSome ↔ ∃ k ∈ keys, inBox k la ln))
    ∧ (∀ keys p la ln k, p.lat = some la → p.lng = some ln →
        keys.find? (fun k2 => inBox k2 la ln) = some k →
        classifyOne keys p = some (if p.region = "" then { p with region := k } else p))
    ∧ (∀ keys places, keys ≠ [] →
        classify keys places = places.filterMap (classifyOne keys)) := by
  refine ⟨fun places => by simp [classify], ?_, ?_, ?_, ?_⟩
  · intro keys p h
    rcases h with h | h <;> simp [classifyOne, h]
  · intro keys p la ln hla hln
    simp only [classifyOne, hla, hln]
    cases hf : List.find? (fun k2 => inBox k2 la ln) keys with
    | none =>
      simp only [hf, Option.isSome_none, Bool.false_eq_true, false_iff]
      rintro ⟨k, hk, hbox⟩
      have := List.find?_eq_none.mp hf k hk
      simp [hbox] at this
    | some k =>
      simp only [hf, Option.isSome_some, true_iff]
      refine ⟨k, List.mem_of_find?_eq_some hf, ?_⟩
      have hp := List.find?_some hf
      simpa using hp
  · intro keys p la ln k hla hln hf
    simp only [classifyOne, hla, hln, hf]
  · intro keys places hk
    simp [classify, hk]

/-- Witness for C3: a coordinate-free place is dropped under the key
"fyn", and a place at (55.3, 10.2) with empty region is kept with region
"fyn" assigned. -/
theorem claim_region_classification_witness :
    classifyOne ["fyn"]
      { title := "A", url := "u", place_id := none, lat := none, lng := none, region := "" }
      = none
    ∧ classifyOne ["fyn"]
      { title := "B", url := "u2", place_id := none,
        lat := some (mkRat 553 10), lng := some (mkRat 102 10), region := "" }
      = some { title := "B", url := "u2", place_id := none,
               lat := some (mkRat 553 10), lng := some (mkRat 102 10), region := "fyn" } := by
  constructor
  · exact claim_region_classification.2.1 ["fyn"] _ (Or.inl rfl)
  · have h := claim_region_classification.2.2.2.1 ["fyn"]
      { title := "B", url := "u2", place_id := none,
        lat := some (mkRat 553 10), lng := some (mkRat 102 10), region := "" }
      (mkRat 553 10) (mkRat 102 10) "fyn" rfl rfl (by decide)
    simpa using h

/-- C5 helper: the loop never requests more pages than it has fuel. -/
theorem fetchLoop_req_le (pages : Nat → Option (List Row)) :
    ∀ fuel p, (fetchLoop pages p fuel).2.length ≤ fuel := by
  intro fuel
  induction fuel with
  | zero => intro p; simp [fetchLoop]
  | succ n ih =>
    intro p
    simp only [fetchLoop]
    cases pages p with
    | none => simp
    | some rows =>
      by_cases h0 : rows.length = 0
      · simp [h0]
      · by_cases hlt : rows.length < PAGE_SIZE
        · simp [h0, hlt]
        · simp only [h0, hlt, if_false]
          cases hrec : fetchLoop pages (p + 1) n with
          | mk res reqs =>
            have hle := ih (p + 1)
            rw [hrec] at hle
            simp only at hle
            cases res <;> simp <;> omega

/-- C5 helper: the first requested page is the start page. -/
theorem fetchLoop_head (pages : Nat → Option (List Row)) (p fuel : Nat) :
    ((fetchLoop pages p (fuel + 1)).2).head? = some p := by
  simp only [fetchLoop]
  cases pages p with
  | none => simp
  | some rows =>
    by_cases h0 : rows.length = 0
    · simp [h0]
    · by_cases hlt : rows.length < PAGE_SIZE
      · simp [h0, hlt]
      · simp only [h0, hlt, if_false]
        cases hrec : fetchLoop pages (p + 1) fuel with
        | mk res reqs => cases res <;> simp

/-- C5 helper: a page with fewer rows than the page size (an empty page
included) is the last page requested. -/
theorem fetchLoop_short_page (pages : Nat → Option (List Row)) (p fuel : Nat)
    (rows : List Row) (hrows : pages p = some rows)
    (hshort : rows.length < PAGE_SIZE) :
    (fetchLoop pages p (fuel + 1)).2 = [p] := by
  simp only [fetchLoop, hrows]
  by_cases h0 : rows.length = 0 <;> simp [h0, hshort]

/-- The paging scenario of the claim: one listing row repeated. -/
def scenarioRow : Row :=
  { uri := "aaby-skoven", placeID := some 4437, doubleLat := some 55, lat := none,
    doubleLng := some 10, lng := none, title := "Aaby Skoven", regionName := "" }

/-- An upstream listing that serves 200, 200 and 150 rows on pages 1-3
and empty pages afterwards. -/
def scenarioPages : Nat → Option (List Row) := fun p =>
  if p = 1 ∨ p = 2 then some (List.replicate 200 scenarioRow)
  else if p = 3 then some (List.replicate 150 scenarioRow)
  else some []

set_option maxRecDepth 10000 in
/-- C5.  `fetchAllPlaces` requests pages starting at page 1, never more
than 500 of them, stops at the first page with fewer than `PAGE_SIZE`
(200) rows — an empty page included — and on an upstream serving
200/200/150 rows on pages 1-3 it requests exactly pages 1, 2, 3 and
never a fourth. -/
theorem claim_catalog_paging_termination :
    (∀ pages, (fetchAllPlaces pages).2.length ≤ 500)
    ∧ (∀ pages, (fetchAllPlaces pages).2.head? = some 1)
    ∧ (∀ pages p fuel rows, pages p = some rows → rows.length < PAGE_SIZE →
        (fetchLoop pages p (fuel + 1)).2 = [p])
    ∧ (fetchAllPlaces scenarioPages).2 = [1, 2, 3]
    ∧ 4 ∉ (fetchAllPlaces scenarioPages).2 := by
  refine ⟨?_, ?_, ?_, ?_, ?_⟩
  · intro pages
    simpa [fetchAllPlaces] using fetchLoop_req_le pages 500 1
  · intro pages
    simpa [fetchAllPlaces] using fetchLoop_head pages 1 499
  · intro pages p fuel rows hrows hshort
    exact fetchLoop_short_page pages p fuel rows hrows hshort
  · decide
  · decide

set_option maxRecDepth 10000 in
/-- Witness for C5: page 3 of the scenario upstream has 150 < 200 rows,
so a loop arriving there requests page 3 and stops. -/
theorem claim_catalog_paging_termination_witness :
    (fetchLoop scenarioPages 3 498).2 = [3] :=
  claim_catalog_paging_termination.2.2.1 scenarioPages 3 497
    (List.replicate 150 scenarioRow) (by decide) (by decide)

/-- C8.  The cookie jar: the attached header is the single
`name1=value1; name2=value2` value; merging is last-write-wins per
cookie name; a coalesced `Set-Cookie` header is split exactly on the
commas immediately preceding a `name=` token, so the comma inside an
`Expires` attribute (followed by a space) never splits, while a comma
directly followed by `name=` does. -/
theorem claim_cookie_jar_behavior :
    (∀ a b c d : String, jarHeader [(a, b), (c, d)] = a ++ "=" ++ b ++ "; " ++ c ++ "=" ++ d)
    ∧ (∀ (jar : List (String × String)) (k v : String), (assocSet jar k v).lookup k = some v)
    ∧ (∀ (jar : List (String × String)) (k v1 v2 : String),
        (assocSet (assocSet jar k v1) k v2).lookup k = some v2)
    ∧ addFromResponse []
        (some "sid=abc; Expires=Wed, 21 Oct 2015 07:28:00 GMT; Path=/,token=xyz; HttpOnly")
        = [("sid", "abc"), ("token", "xyz")]
    ∧ addFromResponse [("ASPSESSIONID", "old")] (some "ASPSESSIONID=new; Path=/")
        = [("ASPSESSIONID", "new")]
    ∧ splitSetCookie "a=1; Expires=Thu, 01 Jan 1970 00:00:00 GMT".data []
        = ["a=1; Expires=Thu, 01 Jan 1970 00:00:00 GMT"]
    ∧ splitSetCookie "a=1,b=2".data [] = ["a=1", "b=2"] := by
  refine ⟨?_, ?_, ?_, by decide, by decide, by decide, by decide⟩
  · intro a b c d
    simp [jarHeader, joinSep, String.append_assoc]
  · intro jar k v
    simp [lookup_assocSet]
  · intro jar k v1 v2
    simp [lookup_assocSet]

/-- C9.  Every 200 payload of the main pipeline satisfies
`count = items.length`. -/
theorem claim_count_matches_items (up : Upstream) (q : Query) (c : Nat)
    (items : List Item) (ev : List NetEvent)
    (h : handler8 up q = (Response.ok c items, ev)) : c = items.length := by
  unfold handler8 at h
  by_cases hv : validStart q.start = false
  · rw [if_pos hv] at h
    simp at h
  · rw [if_neg hv] at h
    cases hfp : fetchAllPlaces up.pages with
    | mk res reqs =>
      rw [hfp] at h
      cases res with
      | error e => simp at h
      | ok allPlaces =>
        simp only [Prod.mk.injEq, Response.ok.injEq] at h
        obtain ⟨⟨hc, hi⟩, _⟩ := h
        rw [← hc, ← hi]

/-- Witness for C9 on the empty-catalog upstream. -/
theorem claim_count_matches_items_witness : (0 : Nat) = ([] : List Item).length :=
  claim_count_matches_items upEmpty
    { start := "2025-09-07", nights := none, region := [], maxPlaces := none }
    0 [] [NetEvent.warmup, NetEvent.listPage 1] (by decide)

/-- C1.  A place for which the flexible calendar fetch yields no parsed
booking response is skipped by the part_008 availability loop: the loop
state is unchanged (nothing enters `available`, no tally moves), and a
run over places that all fail confirms nothing and counts nothing as
checked or available. -/
theorem claim_unconfirmed_place_skipped :
    (∀ up needs st p, fetchBookedDatesFlex up p = none → availStep8 up needs st p = st)
    ∧ (∀ up needs places, (∀ p ∈ places, fetchBookedDatesFlex up p = none) →
        runAvail8 up needs places = AvailState8.init) := by
  have hstep : ∀ up needs st p, fetchBookedDatesFlex up p = none →
      availStep8 up needs st p = st := by
    intro up needs st p h
    simp [availStep8, h]
  refine ⟨hstep, ?_⟩
  intro up needs places hall
  have haux : ∀ (ps : List Place) (st : AvailState8),
      (∀ p ∈ ps, fetchBookedDatesFlex up p = none) →
      ps.foldl (availStep8 up needs) st = st := by
    intro ps
    induction ps with
    | nil => intro st _; rfl
    | cons p rest ih =>
      intro st hall2
      have h1 : fetchBookedDatesFlex up p = none := hall2 p (by simp)
      simp only [List.foldl, hstep up needs st p h1]
      exact ih st (fun q hq => hall2 q (by simp [hq]))
  exact haux places AvailState8.init hall

/-- Witness for C1: a place whose id-keyed and slug-keyed queries both
fail leaves the loop state untouched. -/
theorem claim_unconfirmed_place_skipped_witness :
    availStep8 upEmpty ["2025-09-07"] AvailState8.init
      { title := "X", url := "https://book.naturstyrelsen.dk/sted/aaby-skoven/",
        place_id := some 4437, lat := none, lng := none, region := "" }
      = AvailState8.init :=
  claim_unconfirmed_place_skipped.1 upEmpty ["2025-09-07"] AvailState8.init
    { title := "X", url := "https://book.naturstyrelsen.dk/sted/aaby-skoven/",
      place_id := some 4437, lat := none, lng := none, region := "" }
    (by decide)

/-- The calendar document of the C2 scenario: an empty `BookingDates`
array and a `PartialBookingDates` array containing exactly the start
date. -/
def calPartial : CalResp :=
  { bookingDates := some (some []), partBookingDates := some (some ["2025-09-10"]) }

/-- Calendar upstream for the C2 scenario: the slug query for
"shelter-x" parses to `calPartial`. -/
def upPartial : Upstream :=
  { pages := fun _ => some [], detail := fun _ => none, calById := fun _ => none,
    calBySlug := fun s => if s = "shelter-x" then some calPartial else none }

/-- The place of the C2 scenario. -/
def placePartial : Place :=
  { title := "X", url := "https://book.naturstyrelsen.dk/sted/shelter-x/",
    place_id := none, lat := none, lng := none, region := "" }

/-- C2.  The booked-date set is the union of the `BookingDates` and
`PartialBookingDates` arrays, and a confirmed place is reported
available iff no required night lies in that union; in the concrete
scenario (nights = 1, partial array = the start date) the place is
reported unavailable — confirmed (`availChecked` moves), not skipped. -/
theorem claim_booked_union_availability :
    (∀ (d : CalResp) (s : String), s ∈ toBookedSet d ↔ s ∈ bookArr d ∨ s ∈ partArr d)
    ∧ (∀ up needs st p slug data, slugFromUrl p.url = some slug →
        up.calBySlug slug = some data →
        (mkItem p ∈ (availStep7 up needs st p).available ↔
          mkItem p ∈ st.available ∨ ∀ n ∈ needs, ¬ (n ∈ bookArr data ∨ n ∈ partArr data)))
    ∧ buildNeeds "2025-09-10" (jsNights (some 1)) = ["2025-09-10"]
    ∧ availStep7 upPartial ["2025-09-10"] AvailState7.init placePartial
        = { available := [], availChecked := 1, availErrors := 0, usedSlug := 1, usedId := 0 } := by
  refine ⟨?_, ?_, by decide, by decide⟩
  · intro d s
    simp [toBookedSet]
  · intro up needs st p slug data hslug hdata
    simp only [availStep7, hslug, fetchBookedDatesBySlug, hdata]
    by_cases hov : needs.any (fun n => (toBookedSet data).contains n)
    · simp only [hov, if_true]
      constructor
      · exact Or.inl
      · rintro (h | hfree)
        · exact h
        · exfalso
          rw [List.any_eq_true] at hov
          obtain ⟨n, hn, hcont⟩ := hov
          have hmem : n ∈ toBookedSet data := List.elem_iff.mp hcont
          have : n ∈ bookArr data ∨ n ∈ partArr data := by
            simpa [toBookedSet] using hmem
          exact hfree n hn this
    · simp only [hov, if_false]
      have hfree : ∀ n ∈ needs, ¬ (n ∈ bookArr data ∨ n ∈ partArr data) := by
        intro n hn hmem
        apply hov
        rw [List.any_eq_true]
        refine ⟨n, hn, ?_⟩
        exact List.elem_iff.mpr (by simpa [toBookedSet] using hmem)
      constructor
      · intro _
        right
        intro n hn
        have h2 := hfree n hn
        tauto
      · intro _
        simp

/-- Witness for C2: a slug-confirmed calendar response with a booked
start date keeps the scenario place out of `available`. -/
theorem claim_booked_union_availability_witness :
    mkItem placePartial ∈ (availStep7 upPartial ["2025-09-10"] AvailState7.init placePartial).available
      ↔ mkItem placePartial ∈ AvailState7.init.available
        ∨ ∀ n ∈ (["2025-09-10"] : List String),
            ¬ (n ∈ bookArr calPartial ∨ n ∈ partArr calPartial) :=
  claim_booked_union_availability.2.1 upPartial ["2025-09-10"] AvailState7.init placePartial
    "shelter-x" calPartial (by decide) (by decide)

/-- The malformed-start request of the C6 counterexample. -/
def qBadStart : Query :=
  { start := "07/09/2025", nights := none, region := [], maxPlaces := none }

/-- C6 counterexample: on a request with a malformed `start` the handler
does return the 400 response, but its network trace at that point is not
empty — the session warm-up request has already been issued, so the
rejection does not precede all network activity. -/
theorem claim_validation_before_network_cex :
    (handler8 upEmpty qBadStart).1 = Response.badRequest
    ∧ (handler8 upEmpty qBadStart).2 = [NetEvent.warmup]
    ∧ ([NetEvent.warmup] : List NetEvent) ≠ [] := by
  refine ⟨by decide, by decide, by decide⟩

/-- C6 (amended).  Every request with a malformed `start` is rejected
with the 400 response before any catalog, detail-page or calendar
request is made; the only network activity preceding the rejection is
the single session warm-up request. -/
theorem claim_validation_after_warmup_only (up : Upstream) (q : Query)
    (h : validStart q.start = false) :
    handler8 up q = (Response.badRequest, [NetEvent.warmup]) := by
  unfold handler8
  rw [if_pos h]

/-- Witness for the amended C6. -/
theorem claim_validation_after_warmup_only_witness :
    handler8 upEmpty qBadStart = (Response.badRequest, [NetEvent.warmup]) :=
  claim_validation_after_warmup_only upEmpty qBadStart (by decide)

end DkShelter
